import Mathlib

/-!
Verification of the MaddyBot memory-augmented conversation core.

A shallow embedding of `agent_core.py` (class `MaddyBotAgent`): the
fact extractor `_extract_user_info`, the profile cache `_load_user_info` /
`_store_user_info`, the episodic retrieval `_retrieve_relevant_memory`, the
conversation-window handling `_get_recent_history`, and the orchestration
functions `process_message` / `process_message_with_media`.

Python strings are modelled as `List Char` (all inputs of interest are
ASCII).  The remote collaborators (Chroma similarity search, document add,
and the Gemini text / vision completion calls) are modelled as an
environment of oracles; an oracle outcome `Except.error` stands for the
Python call raising an exception.  The fire-and-forget background episodic
write of `process_message` is modelled as a list of scheduled writes in the
state, since the thread body itself never influences the visible behaviour
of the call.
-/

set_option maxRecDepth 4000

abbrev Chars := List Char

/-- Character list of a string literal. -/
def chrs (s : String) : Chars := s.data

/-- ASCII apostrophe (U+0027), kept out of string literals. -/
def apos : Char := Char.ofNat 39

/-- Python `str.lower` on ASCII letters. -/
def pyLowerChar (c : Char) : Char :=
  if 65 ≤ c.toNat ∧ c.toNat ≤ 90 then Char.ofNat (c.toNat + 32) else c

/-- Python `str.lower` (source line `message_lower = message.lower()`). -/
def pyLower (s : Chars) : Chars := s.map pyLowerChar

/-- Python regex `\s` / `str.strip` whitespace, ASCII part. -/
def isWS (c : Char) : Bool :=
  c = ' ' || c = Char.ofNat 9 || c = Char.ofNat 10 ||
  c = Char.ofNat 13 || c = Char.ofNat 11 || c = Char.ofNat 12

/-- Regex class `[A-Za-z]`. -/
def isAlphaAZ (c : Char) : Bool :=
  (65 ≤ c.toNat && c.toNat ≤ 90) || (97 ≤ c.toNat && c.toNat ≤ 122)

/-- Python `str.strip()` (no arguments): drop leading/trailing whitespace. -/
def pyStrip (s : Chars) : Chars :=
  ((s.dropWhile isWS).reverse.dropWhile isWS).reverse

/-- Helper for `pySplitWS`; `cur` is the current word reversed. -/
def splitWSAux : Chars → Chars → List Chars
  | [], cur => if cur = [] then [] else [cur.reverse]
  | c :: rest, cur =>
    if isWS c then
      (if cur = [] then splitWSAux rest [] else cur.reverse :: splitWSAux rest [])
    else splitWSAux rest (c :: cur)

/-- Python `str.split()` (no arguments): whitespace-run split, no empties. -/
def pySplitWS (s : Chars) : List Chars := splitWSAux s []

/-- Helper for `splitNL`. -/
def splitNLAux : Chars → Chars → List Chars
  | [], cur => [cur.reverse]
  | c :: rest, cur =>
    if c = Char.ofNat 10 then cur.reverse :: splitNLAux rest []
    else splitNLAux rest (c :: cur)

/-- Python `str.split("\n")` (keeps empty segments). -/
def splitNL (s : Chars) : List Chars := splitNLAux s []

/-- Python `line.split(":", 1)[1]`: everything after the first colon.
Returns `[]` when no colon is present (the source only reaches this under a
guard guaranteeing a colon exists). -/
def afterFirstColon : Chars → Chars
  | [] => []
  | c :: rest => if c = ':' then rest else afterFirstColon rest

/-- Substring `s[i:j)`. -/
def sub (s : Chars) (i j : Nat) : Chars := (s.drop i).take (j - i)

/-- Scanner for `findSub`, fuelled by remaining positions. -/
def findSubFrom (s pat : Chars) (i fuel : Nat) : Option Nat :=
  match fuel with
  | 0 => none
  | fuel + 1 =>
    if pat.isPrefixOf (s.drop i) then some i
    else if i < s.length then findSubFrom s pat (i + 1) fuel
    else none

/-- Python `str.find`: leftmost index of a substring occurrence. -/
def findSub (s pat : Chars) : Option Nat := findSubFrom s pat 0 (s.length + 1)

/-- Python `pat in s`. -/
def containsSub (s pat : Chars) : Bool := (findSub s pat).isSome

/-- Python `sep.join(parts)`. -/
def joinSep (sep : Chars) : List Chars → Chars
  | [] => []
  | [x] => x
  | x :: y :: rest => x ++ sep ++ joinSep sep (y :: rest)

/-! ### The specific regular expressions of `_extract_user_info`

The two primary patterns have the shape
`(?:alt1|alt2|...)\s+([A-Za-z\s]+?)(?:\s|$|\.|,|!)`; the matcher below
implements Python `re.search` semantics for exactly this shape: leftmost
starting position wins, alternatives are tried in order at each position,
`\s+` is greedy (with backtracking), the capture group is lazy, and the
terminator alternatives are tried in order. -/

/-- Length of the maximal whitespace run starting at position `j`. -/
def wsRunLen (s : Chars) (j : Nat) : Nat := ((s.drop j).takeWhile isWS).length

/-- Length of the maximal `[A-Za-z]` run starting at position `p`. -/
def alphaRun (s : Chars) (p : Nat) : Nat := ((s.drop p).takeWhile isAlphaAZ).length

/-- Regex class `[A-Za-z\s]` of the lazy capture group. -/
def isNameClass (c : Char) : Bool := isAlphaAZ c || isWS c

/-- Terminator `(?:\s|$|\.|,|!)` at position `p`: returns the position just
after the terminator (`p` itself for `$`). -/
def termEnd (s : Chars) (p : Nat) : Option Nat :=
  match s.get? p with
  | some c =>
    if isWS c then some (p + 1)
    else if c = '.' || c = ',' || c = '!' then some (p + 1)
    else none
  | none => some p

/-- Lazy extension of the capture group: the capture currently ends at `p`;
try the terminator, else extend by one class character. Returns the end of
the whole match (after the terminator). -/
def lazyLoop (s : Chars) (p fuel : Nat) : Option Nat :=
  match fuel with
  | 0 => none
  | fuel + 1 =>
    match termEnd s p with
    | some e => some e
    | none =>
      match s.get? p with
      | some c => if isNameClass c then lazyLoop s (p + 1) fuel else none
      | none => none

/-- Start the lazy capture at position `m` (at least one class character). -/
def tryCapture (s : Chars) (m : Nat) : Option Nat :=
  match s.get? m with
  | some c => if isNameClass c then lazyLoop s (m + 1) (s.length + 1) else none
  | none => none

/-- Greedy `\s+` after the alternative: try consuming `k` whitespace
characters, backtracking from the maximum down to 1. -/
def tryWsK (s : Chars) (j : Nat) : Nat → Option Nat
  | 0 => none
  | k + 1 =>
    match tryCapture s (j + (k + 1)) with
    | some e => some e
    | none => tryWsK s j k

/-- Try one alternative at position `i`; on success returns `(i, e)`, the
bounds of `group(0)`. -/
def tryAltAt (s : Chars) (i : Nat) (alt : Chars) : Option (Nat × Nat) :=
  if alt.isPrefixOf (s.drop i) then
    let j := i + alt.length
    match tryWsK s j (wsRunLen s j) with
    | some e => some (i, e)
    | none => none
  else none

/-- Try the alternatives in order at position `i`. -/
def tryAltsAt (s : Chars) (i : Nat) : List Chars → Option (Nat × Nat)
  | [] => none
  | a :: rest =>
    match tryAltAt s i a with
    | some r => some r
    | none => tryAltsAt s i rest

/-- Position scan of `re.search` for a primary pattern. -/
def searchPatFrom (s : Chars) (alts : List Chars) (i fuel : Nat) :
    Option (Nat × Nat) :=
  match fuel with
  | 0 => none
  | fuel + 1 =>
    match tryAltsAt s i alts with
    | some r => some r
    | none => if i < s.length then searchPatFrom s alts (i + 1) fuel else none

/-- Semantics of `re.search` for a pattern `(?:alts)\s+([A-Za-z\s]+?)(?:\s|$|\.|,|!)`:
the bounds of `group(0)`, leftmost match. -/
def searchPat (s : Chars) (alts : List Chars) : Option (Nat × Nat) :=
  searchPatFrom s alts 0 (s.length + 1)

/-- Greedy `(?:\s+[A-Za-z]+)*` continuation: `p` is the end of a word;
returns the final end position. -/
def wordChain (s : Chars) (p fuel : Nat) : Nat :=
  match fuel with
  | 0 => p
  | fuel + 1 =>
    let w := wsRunLen s p
    if w = 0 then p
    else
      let a := alphaRun s (p + w)
      if a = 0 then p else wordChain s (p + w + a) fuel

/-- Position scan of `re.search(r"([A-Za-z]+(?:\s+[A-Za-z]+)*)", s)`. -/
def searchWordsFrom (s : Chars) (i fuel : Nat) : Option (Nat × Nat) :=
  match fuel with
  | 0 => none
  | fuel + 1 =>
    let a := alphaRun s i
    if a > 0 then some (i, wordChain s (i + a) (s.length + 1))
    else if i < s.length then searchWordsFrom s (i + 1) fuel
    else none

/-- Semantics of the second regex search, `([A-Za-z]+(?:\s+[A-Za-z]+)*)`, on `s`: the captured text. -/
def searchWords (s : Chars) : Option Chars :=
  (searchWordsFrom s 0 (s.length + 1)).map (fun r => sub s r.1 r.2)

/-- One greedy `\s+[A-Za-z]+` step for the anchored fallback pattern. -/
def extendOneWord (s : Chars) (p : Nat) : Option Nat :=
  let w := wsRunLen s p
  if w = 0 then none
  else
    let a := alphaRun s (p + w)
    if a = 0 then none else some (p + w + a)

/-- Semantics of the anchored fallback match `[A-Za-z]+` followed by zero to
two further `\s+[A-Za-z]+` groups: the captured text (greedy). -/
def matchUpTo3 (s : Chars) : Option Chars :=
  let a := alphaRun s 0
  if a = 0 then none
  else
    let e :=
      match extendOneWord s a with
      | none => a
      | some e2 =>
        match extendOneWord s e2 with
        | none => e2
        | some e3 => e3
    some (sub s 0 e)

/-! ### `_extract_user_info` (agent_core.py lines 144-187) -/

/-- Alternatives of the first primary pattern, in source order. -/
def alts1 : List Chars :=
  [chrs "my name is", chrs "i am", chrs "i" ++ [apos] ++ chrs "m",
   chrs "call me", chrs "save my name as", chrs "remember my name as"]

/-- Alternatives of the second primary pattern, in source order. -/
def alts2 : List Chars :=
  [chrs "name is", chrs "name" ++ [apos] ++ chrs "s"]

/-- One primary-pattern attempt of `_extract_user_info` (lines 156-169):
search the lowered message, recover `start_pos` via `str.find`, slice the
original message at `start_pos + len(group(0).split()[-1])`, and run the
word-capturing regex on the slice; `none` when no name of length > 1 is
obtained (the source then falls through to the next pattern). -/
def primaryName (message msgLower : Chars) (alts : List Chars) : Option Chars :=
  match searchPat msgLower alts with
  | none => none
  | some r =>
    let group0 := sub msgLower r.1 r.2
    match findSub msgLower group0 with
    | none => none
    | some startPos =>
      match (pySplitWS group0).getLast? with
      | none => none
      | some lastWord =>
        let namePart := message.drop (startPos + lastWord.length)
        match searchWords namePart with
        | none => none
        | some cap =>
          let nm := pyStrip cap
          if 1 < nm.length then some nm else none

/-- Fallback phrases of `_extract_user_info` (line 174), in source order. -/
def fallbackPhrases : List Chars :=
  [chrs "save my name as", chrs "remember my name as", chrs "my name is",
   chrs "i am", chrs "i" ++ [apos] ++ chrs "m", chrs "call me"]

/-- Fallback loop of `_extract_user_info` (lines 175-185). -/
def fallbackLoop (message msgLower : Chars) : List Chars → Option Chars
  | [] => none
  | ph :: rest =>
    match findSub msgLower ph with
    | some pos =>
      let remaining := pyStrip (message.drop (pos + ph.length))
      match matchUpTo3 remaining with
      | some cap =>
        let nm := pyStrip cap
        if 1 < nm.length then some nm else fallbackLoop message msgLower rest
      | none => fallbackLoop message msgLower rest
    | none => fallbackLoop message msgLower rest

/-- The name candidate produced by `_extract_user_info`: first primary
pattern, then the second (the loop moves on whenever a pattern matched but
no acceptable name came out of it), then the fallback loop (entered only
when `info` is still empty). -/
def extract_name_core (message : Chars) : Option Chars :=
  match primaryName message (pyLower message) alts1 with
  | some nm => some nm
  | none =>
    match primaryName message (pyLower message) alts2 with
    | some nm => some nm
    | none => fallbackLoop message (pyLower message) fallbackPhrases

/-- Source `_extract_user_info(message)`: the returned `info` dict, as an
association list (the source only ever sets the single key `"name"`). -/
def extract_user_info (message : Chars) : List (Chars × Chars) :=
  match extract_name_core message with
  | some nm => [(chrs "name", nm)]
  | none => []


/-! ### Data model: messages, dictionaries, environment, agent state -/

/-- A chat-history message (`HumanMessage` / `AIMessage`). -/
inductive Msg where
  | human (content : Chars)
  | ai (content : Chars)
deriving DecidableEq

/-- Python-dict set on a unique-key association list: replace in place, or
append a new entry. -/
def dictSet : List (Chars × Chars) → Chars → Chars → List (Chars × Chars)
  | [], k, v => [(k, v)]
  | (k', v') :: rest, k, v =>
    if k' = k then (k, v) :: rest else (k', v') :: dictSet rest k v

/-- Python-dict lookup. -/
def dictGet : List (Chars × Chars) → Chars → Option Chars
  | [], _ => none
  | (k', v') :: rest, k => if k' = k then some v' else dictGet rest k

/-- Python `d.update(info)`. -/
def dictMerge (d info : List (Chars × Chars)) : List (Chars × Chars) :=
  info.foldl (fun d p => dictSet d p.1 p.2) d

/-- Python truthiness of `d.get("name")`: key present with non-empty value. -/
def truthyName (d : List (Chars × Chars)) : Bool :=
  match dictGet d (chrs "name") with
  | some n => n ≠ []
  | none => false

/-- Oracles for the remote collaborators.  `Except.error` models the Python
call raising; search oracles are functions of the query text and `k`; the
completion oracle is a function of the system message, the history passed
in, and the new input; the vision oracle additionally receives the optional
system message and the attached image payloads. -/
structure Env where
  profile_search : Chars → Nat → Except Unit (List Chars)
  episodic_search : Chars → Nat → Except Unit (List Chars)
  profile_add : Except Unit Unit
  llm : Chars → List Msg → Chars → Except Chars Chars
  vision_llm : Option Chars → List Msg → Chars → List Chars → Except Chars Chars

/-- The mutable fields of `MaddyBotAgent` relevant to the core, plus
observation logs for the oracle calls:
  * `profile_docs` — page contents added to the `maddybot-user-info` store;
  * `episodic_writes` — exchanges whose background store was scheduled;
  * `profile_search_log` — `(query, k)` of each profile similarity search;
  * `llm_sys_log` — system message of each text completion invocation;
  * `vision_calls` — number of vision completion invocations. -/
structure AgentState where
  chat_history : List Msg
  user_info_cache : List (Chars × Chars)
  user_info_loaded : Bool
  profile_docs : List Chars
  episodic_writes : List (Chars × Chars)
  profile_search_log : List (Chars × Nat)
  llm_sys_log : List Chars
  vision_calls : Nat
deriving DecidableEq

/-- Constant `self.max_history_messages` (line 41). -/
def max_history_messages : Nat := 6

/-- Source `_get_recent_history` (lines 90-95): the last at-most-6 messages. -/
def get_recent_history (messages : List Msg) : List Msg :=
  if messages.length > max_history_messages then
    messages.drop (messages.length - max_history_messages)
  else messages

/-- The post-append window trim of lines 293-297 (`messages[-6:]` whenever
the length exceeds the cap, identity otherwise). -/
def trim_window (messages : List Msg) : List Msg :=
  if messages.length > max_history_messages then
    messages.drop (messages.length - max_history_messages)
  else messages

/-! ### `_load_user_info` (lines 117-142) -/

/-- Inner line loop (lines 132-137): first line containing `name:` (case
insensitive) whose text after the first colon strips to something
non-empty. -/
def first_name_line : List Chars → Option Chars
  | [] => none
  | line :: rest =>
    if containsSub (pyLower line) (chrs "name:") then
      let name := pyStrip (afterFirstColon line)
      if name ≠ [] then some name else first_name_line rest
    else first_name_line rest

/-- Per-document parse (lines 130-137). -/
def parse_profile_doc (doc : Chars) : Option Chars :=
  if containsSub (pyLower doc) (chrs "name:") then first_name_line (splitNL doc)
  else none

/-- Document loop (lines 128-137): each matching document overwrites the
cached name, so the last matching document wins. -/
def parse_profile_docs (docs : List Chars) : List (Chars × Chars) :=
  docs.foldl
    (fun cache doc =>
      match parse_profile_doc doc with
      | some n => dictSet cache (chrs "name") n
      | none => cache)
    []

/-- Source `_load_user_info`: returns the cache and the updated state.  The search
(and its `(query, k)` log entry) happens only on the first call; the
`user_info_loaded` flag is set even when the search raises. -/
def load_user_info (env : Env) (s : AgentState) :
    List (Chars × Chars) × AgentState :=
  if s.user_info_loaded then (s.user_info_cache, s)
  else
    let log := s.profile_search_log ++ [(chrs "user name information", 5)]
    match env.profile_search (chrs "user name information") 5 with
    | .error _ =>
      ([], { s with user_info_cache := [], user_info_loaded := true,
                    profile_search_log := log })
    | .ok docs =>
      let cache := parse_profile_docs docs
      (cache, { s with user_info_cache := cache, user_info_loaded := true,
                       profile_search_log := log })

/-! ### `_store_user_info` (lines 189-214) -/

/-- Source `_store_user_info(info)`: no-op on an empty dict; on a successful add
the serialized document is appended and the cache merged; when the add
raises, the exception is swallowed and the cache is left alone. -/
def store_user_info (env : Env) (s : AgentState)
    (info : List (Chars × Chars)) : AgentState :=
  if info = [] then s
  else
    match env.profile_add with
    | .error _ => s
    | .ok _ =>
      let doc := joinSep [Char.ofNat 10]
        (info.map (fun p => p.1 ++ chrs ": " ++ p.2))
      { s with profile_docs := s.profile_docs ++ [doc],
               user_info_cache := dictMerge s.user_info_cache info }

/-! ### `_retrieve_relevant_memory` (lines 216-236) -/

/-- Source `_retrieve_relevant_memory(query, k)`: empty string when the search
raises or returns nothing, otherwise a labelled block. -/
def retrieve_relevant_memory (env : Env) (query : Chars) (k : Nat) : Chars :=
  match env.episodic_search query k with
  | .error _ => []
  | .ok [] => []
  | .ok (d :: ds) =>
    chrs "\n\n--- Relevant Past Conversations ---\n" ++
      joinSep (chrs "\n\n---\n") (d :: ds)

/-! ### Shared exchange preamble (lines 240-259 = lines 340-358) -/

/-- The persona line of the system message (line 254). -/
def base_system : Chars :=
  chrs "You are MaddyBot, a helpful AI assistant. Be friendly, concise, and direct. Keep responses brief unless detailed explanation is requested."

/-- The name-binding instruction appended to the system message (line 256). -/
def name_instruction (n : Chars) : Chars :=
  chrs "\n\nIMPORTANT: The user" ++ [apos] ++ chrs "s name is " ++ n ++
    chrs ". Always use this name when addressing them. Remember this name for future conversations."

/-- System-message assembly (lines 253-259). -/
def build_system_message (user_info : List (Chars × Chars)) (mem : Chars) :
    Chars :=
  base_system ++
    (match dictGet user_info (chrs "name") with
     | some n => if n = [] then [] else name_instruction n
     | none => []) ++
    (if mem = [] then [] else chrs "\n\n" ++ mem)

/-- Result of the shared preamble: the (aliased) `user_info` dict, the
assembled system message, and the state after fact extraction/storage. -/
structure PreOut where
  user_info : List (Chars × Chars)
  sys_msg : Chars
  st : AgentState
deriving DecidableEq

/-- The steps both `process_message` and `process_message_with_media` run
before choosing a completion path (lines 241-259 resp. 340-358): load the
cache, extract facts, store them and merge them into the cache (the local
`user_info` aliases `self.user_info_cache`, so the line-248 update mutates
the cache even when the persistent store raised), retrieve episodic memory
and assemble the system message. -/
def exchange_preamble (env : Env) (s : AgentState) (message : Chars) :
    PreOut :=
  let load := load_user_info env s
  let extracted := extract_user_info message
  let s2 :=
    if extracted = [] then load.2
    else
      let s' := store_user_info env load.2 extracted
      { s' with user_info_cache := dictMerge s'.user_info_cache extracted }
  let mem := retrieve_relevant_memory env message 2
  ⟨s2.user_info_cache, build_system_message s2.user_info_cache mem, s2⟩

/-! ### `process_message` (lines 238-317) -/

/-- Canned fallback reply for a blank completion (line 287). -/
def fallback_reply : Chars :=
  chrs "I" ++ [apos] ++ chrs "m sorry, I couldn" ++ [apos] ++
    chrs "t generate a response. Please try again."

/-- Source `process_message(message)`: the reply (or the wrapped re-raised error,
line 317) paired with the final agent state.  On success the window is
appended and trimmed (lines 290-297) and the background episodic write is
scheduled (lines 299-311); on a completion exception nothing after the
invoke runs. -/
def process_message (env : Env) (s : AgentState) (message : Chars) :
    Except Chars Chars × AgentState :=
  let p := exchange_preamble env s message
  let recent := get_recent_history p.st.chat_history
  let s3 := { p.st with llm_sys_log := p.st.llm_sys_log ++ [p.sys_msg] }
  match env.llm p.sys_msg recent message with
  | .error e => (.error (chrs "Failed to process message: " ++ e), s3)
  | .ok content =>
    let reply := if pyStrip content = [] then fallback_reply else content
    let hist := s3.chat_history ++ [Msg.human message, Msg.ai reply]
    (.ok reply,
     { s3 with chat_history := trim_window hist,
               episodic_writes := s3.episodic_writes ++ [(message, reply)] })

/-! ### `process_message_with_media` (lines 337-441) -/

/-- The wrapper's own exception handler (lines 438-441). -/
def wrap_media : Except Chars Chars → Except Chars Chars
  | .error e => .error (chrs "Failed to process message with media: " ++ e)
  | .ok r => .ok r

/-- The synthesized note injected before the text-only retry (line 433). -/
def vision_note (n : Nat) (message : Chars) : Chars :=
  chrs "[User attached " ++ Nat.toDigits 10 n ++
    chrs " image(s). Analyzing text content...]" ++
    [Char.ofNat 10, Char.ofNat 10] ++ message

/-- Source `process_message_with_media(message, images)`.  Image payloads are
modelled as opaque data handed to the vision oracle; a failure anywhere in
the vision block (including payload decoding) is the oracle's `error`.  On
vision success the history is appended WITHOUT the trimming step of
`process_message`, mirroring lines 410-412; on vision failure the whole
exchange is re-run through `process_message` with the note-prefixed
message (lines 429-434). -/
def process_message_with_media (env : Env) (s : AgentState)
    (message : Chars) (images : Option (List Chars)) :
    Except Chars Chars × AgentState :=
  let p := exchange_preamble env s message
  match images with
  | some (img :: rest) =>
    let imgs := img :: rest
    let recent := get_recent_history p.st.chat_history
    let s2 := { p.st with vision_calls := p.st.vision_calls + 1 }
    match env.vision_llm (if truthyName p.user_info then some p.sys_msg else none)
        recent message imgs with
    | .ok reply =>
      let humanContent :=
        if message = [] then chrs "[Image(s) attached]" else message
      let hist := s2.chat_history ++ [Msg.human humanContent, Msg.ai reply]
      (.ok reply,
       { s2 with chat_history := hist,
                 episodic_writes := s2.episodic_writes ++
                   [((if message = [] then chrs "[Image(s)]" else message), reply)] })
    | .error _ =>
      let message2 := vision_note imgs.length message
      let r := process_message env s2 message2
      (wrap_media r.1, r.2)
  | _ =>
    let r := process_message env p.st message
    (wrap_media r.1, r.2)

/-! ### Supporting lemmas -/

theorem dictSet_idem (d : List (Chars × Chars)) (k v : Chars) :
    dictSet (dictSet d k v) k v = dictSet d k v := by
  induction d with
  | nil => simp [dictSet]
  | cons p rest ih =>
    by_cases h : p.1 = k
    · simp [dictSet, h]
    · simp [dictSet, h, ih]

theorem dictGet_dictSet (d : List (Chars × Chars)) (k v : Chars) :
    dictGet (dictSet d k v) k = some v := by
  induction d with
  | nil => simp [dictSet, dictGet]
  | cons p rest ih =>
    by_cases h : p.1 = k
    · simp [dictSet, h, dictGet]
    · simp [dictSet, h, dictGet, ih]

theorem primaryName_some_len {message msgLower nm : Chars} {alts : List Chars}
    (h : primaryName message msgLower alts = some nm) : 1 < nm.length := by
  unfold primaryName at h
  simp only [] at h
  repeat' split at h
  all_goals simp_all

theorem fallbackLoop_some_len {message msgLower nm : Chars} :
    ∀ {phs : List Chars}, fallbackLoop message msgLower phs = some nm →
      1 < nm.length := by
  intro phs
  induction phs with
  | nil => intro h; simp [fallbackLoop] at h
  | cons ph rest ih =>
    intro h
    unfold fallbackLoop at h
    simp only [] at h
    repeat' split at h
    all_goals first
      | exact ih h
      | simp_all

theorem extract_name_core_len {m nm : Chars}
    (h : extract_name_core m = some nm) : 1 < nm.length := by
  unfold extract_name_core at h
  split at h
  · next heq => injection h with h'; exact h' ▸ primaryName_some_len heq
  · split at h
    · next heq => injection h with h'; exact h' ▸ primaryName_some_len heq
    · exact fallbackLoop_some_len h

/-- The extractor returns either the empty dict or a single `"name"` entry
whose value has length > 1. -/
theorem extract_user_info_shape (m : Chars) :
    extract_user_info m = [] ∨
      ∃ v, extract_user_info m = [(chrs "name", v)] ∧ 1 < v.length := by
  unfold extract_user_info
  cases hc : extract_name_core m with
  | none => exact Or.inl rfl
  | some nm => exact Or.inr ⟨nm, rfl, extract_name_core_len hc⟩

/-- The helper `_load_user_info` never touches the window, the episodic log, the
instrumented completion logs or the profile store, and always leaves the
loaded flag set. -/
theorem load_user_info_st (env : Env) (s : AgentState) :
    (load_user_info env s).2.chat_history = s.chat_history ∧
    (load_user_info env s).2.episodic_writes = s.episodic_writes ∧
    (load_user_info env s).2.llm_sys_log = s.llm_sys_log ∧
    (load_user_info env s).2.vision_calls = s.vision_calls ∧
    (load_user_info env s).2.profile_docs = s.profile_docs ∧
    (load_user_info env s).2.user_info_loaded = true := by
  unfold load_user_info
  split
  · next h => simp_all
  · split <;> simp_all

/-- The helper `_store_user_info` only ever touches the profile store and the cache. -/
theorem store_user_info_st (env : Env) (s : AgentState)
    (info : List (Chars × Chars)) :
    (store_user_info env s info).chat_history = s.chat_history ∧
    (store_user_info env s info).episodic_writes = s.episodic_writes ∧
    (store_user_info env s info).llm_sys_log = s.llm_sys_log ∧
    (store_user_info env s info).vision_calls = s.vision_calls ∧
    (store_user_info env s info).user_info_loaded = s.user_info_loaded ∧
    (store_user_info env s info).profile_search_log = s.profile_search_log := by
  unfold store_user_info
  split
  · simp_all
  · split <;> simp_all

/-- The shared preamble never touches the window, the episodic log or the
instrumented completion logs, and leaves the loaded flag set. -/
theorem exchange_preamble_st (env : Env) (s : AgentState) (message : Chars) :
    (exchange_preamble env s message).st.chat_history = s.chat_history ∧
    (exchange_preamble env s message).st.episodic_writes = s.episodic_writes ∧
    (exchange_preamble env s message).st.llm_sys_log = s.llm_sys_log ∧
    (exchange_preamble env s message).st.vision_calls = s.vision_calls ∧
    (exchange_preamble env s message).st.user_info_loaded = true := by
  obtain ⟨l1, l2, l3, l4, l5, l6⟩ := load_user_info_st env s
  obtain ⟨t1, t2, t3, t4, t5, t6⟩ :=
    store_user_info_st env (load_user_info env s).2 (extract_user_info message)
  unfold exchange_preamble
  simp only []
  by_cases hx : extract_user_info message = [] <;> simp_all

/-- The preamble's local `user_info` aliases the cache field. -/
theorem exchange_preamble_user_info (env : Env) (s : AgentState) (message : Chars) :
    (exchange_preamble env s message).user_info =
      (exchange_preamble env s message).st.user_info_cache := rfl

theorem dictMerge_single (d : List (Chars × Chars)) (k v : Chars) :
    dictMerge d [(k, v)] = dictSet d k v := rfl

/-- Merging the extracted facts into the post-preamble cache again is a
no-op (the preamble already merged them). -/
theorem exchange_preamble_cache_merge (env : Env) (s : AgentState) (message : Chars) :
    dictMerge (exchange_preamble env s message).st.user_info_cache
      (extract_user_info message) =
    (exchange_preamble env s message).st.user_info_cache := by
  rcases extract_user_info_shape message with hx | ⟨v, hx, hv⟩
  · simp [hx, dictMerge]
  · unfold exchange_preamble
    simp only [hx]
    rw [if_neg (by simp)]
    simp only []
    rw [dictMerge_single, dictMerge_single, dictSet_idem]

/-- Preamble over an already-loaded state whose cache absorbs the extracted
facts: the produced `user_info` and system message depend only on the
cache. -/
theorem exchange_preamble_loaded (env : Env) (t : AgentState) (message : Chars)
    (hl : t.user_info_loaded = true)
    (hc : dictMerge t.user_info_cache (extract_user_info message) = t.user_info_cache) :
    (exchange_preamble env t message).user_info = t.user_info_cache ∧
    (exchange_preamble env t message).sys_msg =
      build_system_message t.user_info_cache (retrieve_relevant_memory env message 2) := by
  have hload : load_user_info env t = (t.user_info_cache, t) := by
    unfold load_user_info; simp [hl]
  unfold exchange_preamble
  rw [hload]
  simp only []
  by_cases hx : extract_user_info message = []
  · simp [hx]
  · rw [if_neg hx]
    unfold store_user_info
    rw [if_neg hx]
    cases env.profile_add with
    | error u => simp [hc]
    | ok u => simp [hc]

/-- Running the preamble twice (as the media wrapper followed by
`process_message` does) yields the same `user_info` and system message. -/
theorem exchange_preamble_stable (env : Env) (s : AgentState) (message : Chars) :
    (exchange_preamble env (exchange_preamble env s message).st message).user_info =
      (exchange_preamble env s message).user_info ∧
    (exchange_preamble env (exchange_preamble env s message).st message).sys_msg =
      (exchange_preamble env s message).sys_msg := by
  have hl := (exchange_preamble_st env s message).2.2.2.2
  have hc := exchange_preamble_cache_merge env s message
  obtain ⟨h1, h2⟩ :=
    exchange_preamble_loaded env (exchange_preamble env s message).st message hl hc
  exact ⟨by rw [h1]; rfl, by rw [h2]; rfl⟩

/-- The function `process_message` logs exactly one completion call, never touches the
vision counter, and leaves the cache as the preamble set it. -/
theorem process_message_logs (env : Env) (s : AgentState) (message : Chars) :
    (process_message env s message).2.llm_sys_log =
      s.llm_sys_log ++ [(exchange_preamble env s message).sys_msg] ∧
    (process_message env s message).2.vision_calls = s.vision_calls ∧
    (process_message env s message).2.user_info_cache =
      (exchange_preamble env s message).st.user_info_cache := by
  obtain ⟨p1, p2, p3, p4, p5⟩ := exchange_preamble_st env s message
  unfold process_message
  simp only []
  cases env.llm (exchange_preamble env s message).sys_msg
      (get_recent_history (exchange_preamble env s message).st.chat_history)
      message <;> simp_all

/-- Re-running `process_message` from the post-preamble state (as the media
wrapper effectively does) returns the same result and window. -/
theorem process_message_preamble_eq (env : Env) (s : AgentState) (message : Chars) :
    (process_message env (exchange_preamble env s message).st message).1 =
      (process_message env s message).1 ∧
    (process_message env (exchange_preamble env s message).st message).2.chat_history =
      (process_message env s message).2.chat_history := by
  obtain ⟨hui, hsys⟩ := exchange_preamble_stable env s message
  have hch := (exchange_preamble_st env (exchange_preamble env s message).st message).1
  have hch1 := (exchange_preamble_st env s message).1
  unfold process_message
  simp only []
  rw [hsys, hch, hch1]
  cases env.llm (exchange_preamble env s message).sys_msg
      (get_recent_history s.chat_history) message <;> simp [hch, hch1]

/-- The flag `user_info_loaded` stays set: `_load_user_info` on a loaded state. -/
theorem load_user_info_fix (env : Env) (t : AgentState)
    (h : t.user_info_loaded = true) :
    load_user_info env t = (t.user_info_cache, t) := by
  unfold load_user_info; simp [h]

/-- State after `n` successive `_load_user_info` calls. -/
def load_iter (env : Env) : Nat → AgentState → AgentState
  | 0, s => s
  | n + 1, s => load_iter env n (load_user_info env s).2

theorem load_iter_fix (env : Env) (t : AgentState)
    (h : t.user_info_loaded = true) : ∀ n, load_iter env n t = t := by
  intro n
  induction n with
  | zero => rfl
  | succ n ih => unfold load_iter; rw [load_user_info_fix env t h]; exact ih

/-- What the spec calls "the first match found" versus what the code
computes: folding over the returned documents, each document that parses
overwrites the previous value, so the last parsed document wins. -/
def last_doc_name (docs : List Chars) : Option Chars :=
  docs.foldl
    (fun acc doc =>
      match parse_profile_doc doc with
      | some n => some n
      | none => acc)
    none

theorem parse_profile_fold_get (docs : List Chars) :
    ∀ cache : List (Chars × Chars),
      dictGet (docs.foldl
        (fun cache doc =>
          match parse_profile_doc doc with
          | some n => dictSet cache (chrs "name") n
          | none => cache) cache) (chrs "name") =
      docs.foldl
        (fun acc doc =>
          match parse_profile_doc doc with
          | some n => some n
          | none => acc) (dictGet cache (chrs "name")) := by
  induction docs with
  | nil => intro cache; rfl
  | cons d ds ih =>
    intro cache
    simp only [List.foldl_cons]
    cases hp : parse_profile_doc d with
    | none => simp only []; exact ih cache
    | some n => simp only []; rw [ih, dictGet_dictSet]

theorem parse_profile_docs_get (docs : List Chars) :
    dictGet (parse_profile_docs docs) (chrs "name") = last_doc_name docs := by
  unfold parse_profile_docs last_doc_name
  exact parse_profile_fold_get docs []

/-! ### Concrete environments and states for evaluations and witnesses -/

/-- A benign environment: both stores answer with no documents, adds
succeed, the text completion replies `"ok"`, the vision completion replies
`"vision reply"`. -/
def env_demo : Env where
  profile_search := fun _ _ => Except.ok []
  episodic_search := fun _ _ => Except.ok []
  profile_add := Except.ok ()
  llm := fun _ _ _ => Except.ok (chrs "ok")
  vision_llm := fun _ _ _ _ => Except.ok (chrs "vision reply")

/-- The state of a freshly constructed agent (`__init__`). -/
def st_fresh : AgentState where
  chat_history := []
  user_info_cache := []
  user_info_loaded := false
  profile_docs := []
  episodic_writes := []
  profile_search_log := []
  llm_sys_log := []
  vision_calls := 0

/-- A session whose window already holds the full 6 messages. -/
def st_six : AgentState where
  chat_history :=
    [Msg.human (chrs "a"), Msg.ai (chrs "b"), Msg.human (chrs "c"),
     Msg.ai (chrs "d"), Msg.human (chrs "e"), Msg.ai (chrs "f")]
  user_info_cache := []
  user_info_loaded := true
  profile_docs := []
  episodic_writes := []
  profile_search_log := []
  llm_sys_log := []
  vision_calls := 0

/-- Environment whose text completion raises. -/
def env_llm_down : Env :=
  { env_demo with llm := fun _ _ _ => Except.error (chrs "boom") }

/-- Environment whose text completion succeeds with a blank reply. -/
def env_llm_blank : Env :=
  { env_demo with llm := fun _ _ _ => Except.ok (chrs "   ") }

/-- Environment whose episodic search raises. -/
def env_epi_down : Env :=
  { env_demo with episodic_search := fun _ _ => Except.error () }

/-- Environment whose episodic search returns one document. -/
def env_epi_one : Env :=
  { env_demo with episodic_search := fun _ _ => Except.ok [chrs "doc"] }

/-- Environment whose profile search returns two name documents. -/
def env_two_profiles : Env :=
  { env_demo with
      profile_search := fun _ _ =>
        Except.ok [chrs "name: Alice", chrs "name: Bob"] }

/-! ### The claims -/

/-- Claim C1 (code bug in the source): the claim says the conversation window
holds at most `N = 6` turns after any mutation.  The text path trims
(lines 293-297), but the vision path of `process_message_with_media`
appends the human/assistant pair without trimming (lines 410-412): starting
from a full 6-message window, one successful vision exchange leaves 8
messages in the window.  The recent-history accessor still caps its result
at 6. -/
theorem claim_C1 :
    (process_message_with_media env_demo st_six (chrs "hi")
        (some [chrs "img"])).2.chat_history.length = 8 ∧
    max_history_messages < 8 ∧
    (get_recent_history
      (process_message_with_media env_demo st_six (chrs "hi")
        (some [chrs "img"])).2.chat_history).length = 6 := by
  decide

/-- Claim C2 (code bug in the source): the spec's examples for
`FactExtractor.extract`.  The slice offset `start_pos +
len(match.group(0).split()[-1])` (line 162) is computed from the length of
the *last* word of the match instead of its position, so the code returns
the mapping name ↦ is Maadhu for the input My name is Maadhu. and
name ↦ my name as John Smith for the input save my name as John Smith,
rather than the claimed Maadhu / John Smith;
only the empty-mapping example for hello there holds. -/
theorem claim_C2 :
    extract_user_info (chrs "My name is Maadhu.") =
      [(chrs "name", chrs "is Maadhu")] ∧
    extract_user_info (chrs "save my name as John Smith") =
      [(chrs "name", chrs "my name as John Smith")] ∧
    extract_user_info (chrs "hello there") = [] := by
  decide

/-- Claim C3 (counterexample to the claim as stated): when the message
contains extractable facts, `_store_user_info` runs *before* the completion
call, so a completion exception does leave a trace in the persisted profile
store: with a raising completion, processing `"my name is Bob"` grows
`profile_docs` from `[]` to one document. -/
theorem claim_C3_counterexample :
    (process_message env_llm_down st_fresh (chrs "my name is Bob")).1 =
      Except.error (chrs "Failed to process message: boom") ∧
    st_fresh.profile_docs = [] ∧
    (process_message env_llm_down st_fresh (chrs "my name is Bob")).2.profile_docs =
      [chrs "name: name is Bob"] :=
  ⟨rfl, rfl, rfl⟩

/-- Claim C3 (amended): if the completion call raises, the exception is
re-raised wrapped in `"Failed to process message: ..."`, and neither the
conversation window nor the episodic store is updated by the exchange; the
profile store, however, may already have been updated by the
pre-completion fact-extraction write. -/
theorem claim_C3 (env : Env) (s : AgentState) (message e : Chars)
    (h : ∀ sys hist inp, env.llm sys hist inp = Except.error e) :
    (process_message env s message).1 =
      Except.error (chrs "Failed to process message: " ++ e) ∧
    (process_message env s message).2.chat_history = s.chat_history ∧
    (process_message env s message).2.episodic_writes = s.episodic_writes := by
  obtain ⟨p1, p2, p3, p4, p5⟩ := exchange_preamble_st env s message
  unfold process_message
  simp only []
  rw [h]
  simp_all

/-- Witness for C3 at a concrete raising completion. -/
theorem claim_C3_witness :
    (process_message env_llm_down st_six (chrs "hello there")).1 =
      Except.error (chrs "Failed to process message: boom") ∧
    (process_message env_llm_down st_six (chrs "hello there")).2.chat_history =
      st_six.chat_history ∧
    (process_message env_llm_down st_six (chrs "hello there")).2.episodic_writes =
      st_six.episodic_writes :=
  claim_C3 env_llm_down st_six (chrs "hello there") (chrs "boom")
    (fun _ _ _ => rfl)

/-- Claim C4 (confirmed): `_retrieve_relevant_memory` returns the empty
string when the episodic search raises or returns no documents, and a
non-empty formatted block when at least one document comes back; being a
total function into `Chars`, it propagates no exception. -/
theorem claim_C4 (env : Env) (q : Chars) (k : Nat) :
    (env.episodic_search q k = Except.error () →
      retrieve_relevant_memory env q k = []) ∧
    (env.episodic_search q k = Except.ok [] →
      retrieve_relevant_memory env q k = []) ∧
    (∀ d ds, env.episodic_search q k = Except.ok (d :: ds) →
      retrieve_relevant_memory env q k ≠ []) := by
  refine ⟨?_, ?_, ?_⟩
  · intro h; unfold retrieve_relevant_memory; rw [h]
  · intro h; unfold retrieve_relevant_memory; rw [h]
  · intro d ds h
    unfold retrieve_relevant_memory
    rw [h]
    simp [chrs]

/-- Witness for C4: a raising store, an empty store, and a one-document
store. -/
theorem claim_C4_witness :
    retrieve_relevant_memory env_epi_down (chrs "q") 3 = [] ∧
    retrieve_relevant_memory env_demo (chrs "q") 3 = [] ∧
    retrieve_relevant_memory env_epi_one (chrs "q") 3 ≠ [] :=
  ⟨(claim_C4 env_epi_down (chrs "q") 3).1 rfl,
   (claim_C4 env_demo (chrs "q") 3).2.1 rfl,
   (claim_C4 env_epi_one (chrs "q") 3).2.2 (chrs "doc") [] rfl⟩

/-- Claim C5 (confirmed): a successful completion whose text strips to
nothing is replaced by the canned fallback reply; the exchange counts as a
success: the window receives the human/assistant pair (trimmed) and the
background episodic write is scheduled. -/
theorem claim_C5 (env : Env) (s : AgentState) (message r : Chars)
    (hok : ∀ sys hist inp, env.llm sys hist inp = Except.ok r)
    (hblank : pyStrip r = []) :
    (process_message env s message).1 = Except.ok fallback_reply ∧
    (process_message env s message).2.chat_history =
      trim_window (s.chat_history ++ [Msg.human message, Msg.ai fallback_reply]) ∧
    (process_message env s message).2.episodic_writes =
      s.episodic_writes ++ [(message, fallback_reply)] := by
  obtain ⟨p1, p2, p3, p4, p5⟩ := exchange_preamble_st env s message
  unfold process_message
  simp only []
  rw [hok]
  simp_all [hblank]

/-- Witness for C5 at a whitespace-only completion. -/
theorem claim_C5_witness :
    (process_message env_llm_blank st_fresh (chrs "hello there")).1 =
      Except.ok fallback_reply ∧
    (process_message env_llm_blank st_fresh (chrs "hello there")).2.chat_history =
      [Msg.human (chrs "hello there"), Msg.ai fallback_reply] ∧
    (process_message env_llm_blank st_fresh (chrs "hello there")).2.episodic_writes =
      [(chrs "hello there", fallback_reply)] := by
  obtain ⟨h1, h2, h3⟩ := claim_C5 env_llm_blank st_fresh (chrs "hello there")
    (chrs "   ") (fun _ _ _ => rfl) (by decide)
  exact ⟨h1, by rw [h2]; rfl, by rw [h3]; rfl⟩

/-- Claim C6 (confirmed): in one session, the first `_load_user_info` call
performs exactly one profile similarity search (even when it raises — both
branches log the probe and set the loaded flag), and every further call
returns the cached mapping and leaves the state — in particular the search
log — untouched. -/
theorem claim_C6 (env : Env) (s : AgentState)
    (hun : s.user_info_loaded = false) :
    (load_user_info env s).2.profile_search_log =
      s.profile_search_log ++ [(chrs "user name information", 5)] ∧
    load_user_info env (load_user_info env s).2 =
      ((load_user_info env s).2.user_info_cache, (load_user_info env s).2) ∧
    ∀ n, load_iter env n (load_user_info env s).2 = (load_user_info env s).2 := by
  have hl : (load_user_info env s).2.user_info_loaded = true :=
    (load_user_info_st env s).2.2.2.2.2
  refine ⟨?_, load_user_info_fix env _ hl, load_iter_fix env _ hl⟩
  unfold load_user_info
  simp only [hun, Bool.false_eq_true, if_false]
  split <;> rfl

/-- Witness for C6: three further calls after the first do nothing. -/
theorem claim_C6_witness :
    (load_user_info env_demo st_fresh).2.profile_search_log =
      [(chrs "user name information", 5)] ∧
    load_iter env_demo 3 (load_user_info env_demo st_fresh).2 =
      (load_user_info env_demo st_fresh).2 := by
  obtain ⟨h1, h2, h3⟩ := claim_C6 env_demo st_fresh rfl
  exact ⟨by rw [h1]; rfl, h3 3⟩

/-- Claim C7 (counterexample to the claim as stated): with two returned
profile documents `"name: Alice"` (nearest) and `"name: Bob"`, the cached
name is `"Bob"`, not the first match `"Alice"`: the inner `break` of
`_load_user_info` only leaves the line loop, so each later matching
document overwrites the cache. -/
theorem claim_C7_counterexample :
    dictGet (load_user_info env_two_profiles st_fresh).1 (chrs "name") ≠
      some (chrs "Alice") ∧
    dictGet (load_user_info env_two_profiles st_fresh).1 (chrs "name") =
      some (chrs "Bob") := by
  decide

/-- Claim C7 (amended): the first call searches the profile collection with
the fixed probe `"user name information"` and `k = 5`, and parses the
first non-empty `name:` line of each returned document; the cached name is
the match from the *last* such document in nearest-first order (each later
match overwrites the earlier ones), not the first. -/
theorem claim_C7 (env : Env) (s : AgentState) (docs : List Chars)
    (hun : s.user_info_loaded = false)
    (hs : env.profile_search (chrs "user name information") 5 = Except.ok docs) :
    (load_user_info env s).2.profile_search_log =
      s.profile_search_log ++ [(chrs "user name information", 5)] ∧
    (load_user_info env s).1 = parse_profile_docs docs ∧
    dictGet (load_user_info env s).1 (chrs "name") = last_doc_name docs := by
  unfold load_user_info
  simp only [hun, Bool.false_eq_true, if_false]
  rw [hs]
  exact ⟨rfl, rfl, parse_profile_docs_get docs⟩

/-- Witness for C7 at the two-document store. -/
theorem claim_C7_witness :
    (load_user_info env_two_profiles st_fresh).2.profile_search_log =
      [(chrs "user name information", 5)] ∧
    dictGet (load_user_info env_two_profiles st_fresh).1 (chrs "name") =
      last_doc_name [chrs "name: Alice", chrs "name: Bob"] := by
  obtain ⟨h1, h2, h3⟩ := claim_C7 env_two_profiles st_fresh
    [chrs "name: Alice", chrs "name: Bob"] rfl rfl
  exact ⟨by rw [h1]; rfl, h3⟩

/-- The preamble's system message is the assembly over its own cache. -/
theorem exchange_preamble_sys (env : Env) (s : AgentState) (message : Chars) :
    (exchange_preamble env s message).sys_msg =
      build_system_message (exchange_preamble env s message).st.user_info_cache
        (retrieve_relevant_memory env message 2) := rfl

/-- System-message assembly when the cache holds a non-empty name. -/
theorem build_system_message_name (d : List (Chars × Chars)) (mem v : Chars)
    (h : dictGet d (chrs "name") = some v) (hne : v ≠ []) :
    build_system_message d mem =
      base_system ++ name_instruction v ++
        (if mem = [] then [] else chrs "\n\n" ++ mem) := by
  unfold build_system_message
  rw [h]
  simp only []
  rw [if_neg hne]

/-- Claim C8 (confirmed): with images attached and a vision completion that
raises, the whole exchange is re-run exactly once through the text-only
path with the synthesized `[User attached N image(s)...]` note prefixed to
the message, yielding the single result of that retry; exactly one vision
attempt and exactly one text completion call happen, and when the retry
succeeds the caller sees its plain reply (no vision error surfaces). -/
theorem claim_C8 (env : Env) (s : AgentState) (message v img : Chars)
    (imgs : List Chars)
    (hv : ∀ os hist m i, env.vision_llm os hist m i = Except.error v) :
    (process_message_with_media env s message (some (img :: imgs))).1 =
      wrap_media (process_message env
        { (exchange_preamble env s message).st with
            vision_calls := (exchange_preamble env s message).st.vision_calls + 1 }
        (vision_note (img :: imgs).length message)).1 ∧
    (process_message_with_media env s message (some (img :: imgs))).2 =
      (process_message env
        { (exchange_preamble env s message).st with
            vision_calls := (exchange_preamble env s message).st.vision_calls + 1 }
        (vision_note (img :: imgs).length message)).2 ∧
    (process_message_with_media env s message (some (img :: imgs))).2.vision_calls =
      s.vision_calls + 1 ∧
    (process_message_with_media env s message (some (img :: imgs))).2.llm_sys_log.length =
      s.llm_sys_log.length + 1 ∧
    (∀ r, (process_message env
        { (exchange_preamble env s message).st with
            vision_calls := (exchange_preamble env s message).st.vision_calls + 1 }
        (vision_note (img :: imgs).length message)).1 = Except.ok r →
      (process_message_with_media env s message (some (img :: imgs))).1 =
        Except.ok r) := by
  have hred : process_message_with_media env s message (some (img :: imgs)) =
      (let p := exchange_preamble env s message
       let s2 := { p.st with vision_calls := p.st.vision_calls + 1 }
       match env.vision_llm (if truthyName p.user_info then some p.sys_msg else none)
           (get_recent_history p.st.chat_history) message (img :: imgs) with
       | .ok reply =>
         let humanContent :=
           if message = [] then chrs "[Image(s) attached]" else message
         (.ok reply,
          { s2 with chat_history := s2.chat_history ++ [Msg.human humanContent, Msg.ai reply],
                    episodic_writes := s2.episodic_writes ++
                      [((if message = [] then chrs "[Image(s)]" else message), reply)] })
       | .error _ =>
         let r := process_message env s2 (vision_note (img :: imgs).length message)
         (wrap_media r.1, r.2)) := rfl
  rw [hred]
  simp only [hv]
  refine ⟨trivial, trivial, ?_, ?_, ?_⟩
  · have hvc := (process_message_logs env
      { (exchange_preamble env s message).st with
          vision_calls := (exchange_preamble env s message).st.vision_calls + 1 }
      (vision_note (img :: imgs).length message)).2.1
    simp only [] at hvc ⊢
    rw [hvc]
    simp [(exchange_preamble_st env s message).2.2.2.1]
  · have hlog := (process_message_logs env
      { (exchange_preamble env s message).st with
          vision_calls := (exchange_preamble env s message).st.vision_calls + 1 }
      (vision_note (img :: imgs).length message)).1
    simp only [] at hlog ⊢
    rw [hlog]
    simp [(exchange_preamble_st env s message).2.2.1]
  · intro r hr
    rw [hr]
    rfl

/-- Environment whose vision completion raises. -/
def env_vision_down : Env :=
  { env_demo with vision_llm := fun _ _ _ _ => Except.error (chrs "vboom") }

/-- Witness for C8: one image, vision down, text retry succeeds with the
benign completion's reply. -/
theorem claim_C8_witness :
    (process_message_with_media env_vision_down st_fresh (chrs "hi")
        (some [chrs "img"])).2.vision_calls = st_fresh.vision_calls + 1 ∧
    (process_message_with_media env_vision_down st_fresh (chrs "hi")
        (some [chrs "img"])).2.llm_sys_log.length =
      st_fresh.llm_sys_log.length + 1 ∧
    (process_message_with_media env_vision_down st_fresh (chrs "hi")
        (some [chrs "img"])).1 = Except.ok (chrs "ok") := by
  obtain ⟨e1, e2, c2, c3, c4⟩ := claim_C8 env_vision_down st_fresh (chrs "hi")
    (chrs "vboom") (chrs "img") [] (fun _ _ _ _ => rfl)
  exact ⟨c2, c3, c4 (chrs "ok") rfl⟩

/-- Claim C9 (confirmed): calling `process_message_with_media` with
`images = None` or `images = []` routes through `process_message`; despite
the wrapper's duplicated preamble (a second fact-extraction/store and
memory retrieval), the reply on success and the resulting conversation
window coincide with calling `process_message` directly. -/
theorem claim_C9 (env : Env) (s : AgentState) (message : Chars) :
    (process_message_with_media env s message none).2.chat_history =
      (process_message env s message).2.chat_history ∧
    (process_message_with_media env s message (some [])).2.chat_history =
      (process_message env s message).2.chat_history ∧
    ∀ r, (process_message env s message).1 = Except.ok r →
      (process_message_with_media env s message none).1 = Except.ok r ∧
      (process_message_with_media env s message (some [])).1 = Except.ok r := by
  obtain ⟨h1, h2⟩ := process_message_preamble_eq env s message
  have hred_none : process_message_with_media env s message none =
      (wrap_media (process_message env (exchange_preamble env s message).st message).1,
       (process_message env (exchange_preamble env s message).st message).2) := rfl
  have hred_nil : process_message_with_media env s message (some []) =
      (wrap_media (process_message env (exchange_preamble env s message).st message).1,
       (process_message env (exchange_preamble env s message).st message).2) := rfl
  refine ⟨by rw [hred_none]; exact h2, by rw [hred_nil]; exact h2, ?_⟩
  intro r hr
  have hin : (process_message env (exchange_preamble env s message).st message).1 =
      Except.ok r := by rw [h1, hr]
  constructor
  · rw [hred_none]; simp only [hin]; rfl
  · rw [hred_nil]; simp only [hin]; rfl

/-- Witness for C9 at the benign environment. -/
theorem claim_C9_witness :
    (process_message_with_media env_demo st_fresh (chrs "hello there") none).1 =
      Except.ok (chrs "ok") ∧
    (process_message_with_media env_demo st_fresh (chrs "hello there") (some [])).1 =
      Except.ok (chrs "ok") :=
  (claim_C9 env_demo st_fresh (chrs "hello there")).2.2 (chrs "ok") rfl

/-- Claim C10 (confirmed): when fact extraction finds a name and the profile
add raises, the exception is swallowed (`process_message` still returns);
the extracted facts end up in the in-session cache anyway, because the
local `user_info` dict returned by `_load_user_info` aliases
`self.user_info_cache` and line 248 merges into it; the system message sent
to the completion carries the name-binding instruction with the new name;
and the result is identical to the run in which the profile add
succeeds. -/
theorem claim_C10 (env : Env) (s : AgentState) (message v : Chars)
    (hx : extract_user_info message = [(chrs "name", v)])
    (hadd : env.profile_add = Except.error ()) :
    dictGet (process_message env s message).2.user_info_cache (chrs "name") =
      some v ∧
    (∃ sys, (process_message env s message).2.llm_sys_log =
        s.llm_sys_log ++ [sys] ∧ name_instruction v <:+: sys) ∧
    (process_message env s message).1 =
      (process_message { env with profile_add := Except.ok () } s message).1 := by
  have hv1 : 1 < v.length := by
    rcases extract_user_info_shape message with h0 | ⟨v', h', hv'⟩
    · rw [h0] at hx; exact absurd hx (by simp)
    · rw [h'] at hx
      have : v' = v := by injection hx with hx1 _; injection hx1 with _ hx2
      exact this ▸ hv'
  have hvne : v ≠ [] := by
    intro hnil; rw [hnil] at hv1; simp at hv1
  have hpc : (exchange_preamble env s message).st.user_info_cache =
      dictSet (load_user_info env s).2.user_info_cache (chrs "name") v := by
    unfold exchange_preamble
    simp only [hx]
    rw [if_neg (by simp)]
    unfold store_user_info
    rw [if_neg (by simp), hadd]
    simp only []
    rw [dictMerge_single]
  have hpcOK : (exchange_preamble { env with profile_add := Except.ok () } s
      message).st.user_info_cache =
      dictSet (load_user_info env s).2.user_info_cache (chrs "name") v := by
    unfold exchange_preamble
    simp only [hx]
    rw [if_neg (by simp)]
    unfold store_user_info
    rw [if_neg (by simp)]
    simp only []
    rw [dictMerge_single, dictMerge_single, dictSet_idem]
    rfl
  have hsys_eq : (exchange_preamble { env with profile_add := Except.ok () } s
      message).sys_msg = (exchange_preamble env s message).sys_msg := by
    rw [exchange_preamble_sys, exchange_preamble_sys, hpcOK, hpc]
    rfl
  refine ⟨?_, ?_, ?_⟩
  · rw [(process_message_logs env s message).2.2, hpc, dictGet_dictSet]
  · refine ⟨(exchange_preamble env s message).sys_msg,
      (process_message_logs env s message).1, ?_⟩
    rw [exchange_preamble_sys, hpc,
      build_system_message_name _ _ v (dictGet_dictSet _ _ _) hvne]
    exact ⟨base_system,
      (if retrieve_relevant_memory env message 2 = [] then []
       else chrs "\n\n" ++ retrieve_relevant_memory env message 2), rfl⟩
  · have hch := (exchange_preamble_st env s message).1
    have hchOK := (exchange_preamble_st { env with profile_add := Except.ok () }
      s message).1
    have hllm_flip : ({ env with profile_add := Except.ok () } : Env).llm =
      env.llm := rfl
    unfold process_message
    simp only []
    rw [hch, hchOK, hsys_eq, hllm_flip]
    cases env.llm (exchange_preamble env s message).sys_msg
        (get_recent_history s.chat_history) message <;> simp

/-- Environment whose profile add raises. -/
def env_add_down : Env :=
  { env_demo with profile_add := Except.error () }

/-- Witness for C10: a name-bearing message with the profile store down. -/
theorem claim_C10_witness :
    dictGet (process_message env_add_down st_fresh
        (chrs "my name is Bob")).2.user_info_cache (chrs "name") =
      some (chrs "name is Bob") ∧
    (process_message env_add_down st_fresh (chrs "my name is Bob")).1 =
      (process_message { env_add_down with profile_add := Except.ok () }
        st_fresh (chrs "my name is Bob")).1 := by
  obtain ⟨h1, h2, h3⟩ := claim_C10 env_add_down st_fresh (chrs "my name is Bob")
    (chrs "name is Bob") (by decide) rfl
  exact ⟨h1, h3⟩
